import Mathlib

set_option maxHeartbeats 1000000
set_option maxRecDepth 8000

/- Shallow embedding of the Document-Processing-System repository
   (FastAPI document upload / embed / query / delete pipeline).

   Python strings are modelled as `List Char` in the chunking core
   (services/document_processor.py, whose splitter is the LangChain
   RecursiveCharacterTextSplitter configured with chunk_size 1000,
   chunk_overlap 200 and separators "\n\n", "\n", " ", "", with the
   default keep_separator=True and strip_whitespace=True), and as
   `String` at the router level (routers/document_router.py).
   The float constants 0.0, 0.5, 2.0 that the code manipulates are exact
   binary values and are modelled as rationals. -/

/-- chunk_size configured in DocumentProcessor.__init__. -/
def chunk_size : Nat := 1000

/-- chunk_overlap configured in DocumentProcessor.__init__. -/
def chunk_overlap : Nat := 200

/-- The code points of the characters removed by CPython str.strip()
    (Py_UNICODE_ISSPACE): the ASCII whitespace and separators 09-0D, 1C-1F
    and 20, next-line 85, no-break space A0, Ogham space 1680, the
    typographic spaces 2000-200A, the line and paragraph separators
    2028-2029, narrow no-break space 202F, medium mathematical space 205F
    and ideographic space 3000. -/
def pySpaceCodes : List Nat :=
  [0x9, 0xA, 0xB, 0xC, 0xD, 0x1C, 0x1D, 0x1E, 0x1F, 0x20,
   0x85, 0xA0, 0x1680, 0x2000, 0x2001, 0x2002, 0x2003, 0x2004, 0x2005,
   0x2006, 0x2007, 0x2008, 0x2009, 0x200A, 0x2028, 0x2029, 0x202F, 0x205F, 0x3000]

/-- Whether Python str.strip() removes this character. -/
def isPySpace (c : Char) : Bool :=
  pySpaceCodes.contains c.toNat

/-- Python str.strip(): remove leading and trailing whitespace. -/
def stripPy (l : List Char) : List Char :=
  ((l.dropWhile isPySpace).reverse.dropWhile isPySpace).reverse

/-- Python `sep in text` (re.search of the escaped separator):
    does `s` occur in `t` as a contiguous substring? -/
def containsSub (s : List Char) : List Char → Bool
  | [] => s.isPrefixOf []
  | c :: rest => s.isPrefixOf (c :: rest) || containsSub s rest

/-- The separator-selection loop at the top of
    RecursiveCharacterTextSplitter._split_text: scan the separator list,
    stop at the first empty separator or the first separator occurring in
    the text (returning it with the remaining separators); default to the
    last separator with no remaining ones. -/
def chooseSepAux (t dflt : List Char) : List (List Char) → List Char × List (List Char)
  | [] => (dflt, [])
  | s :: rest =>
    if s = [] then ([], [])
    else if containsSub s t then (s, rest)
    else chooseSepAux t dflt rest

/-- Separator selection (`separator = separators[-1]` as the default). -/
def chooseSep (t : List Char) (seps : List (List Char)) : List Char × List (List Char) :=
  chooseSepAux t (seps.getLastD []) seps

/-- re.split on the literal (escaped) separator, accumulator style.
    The fuel argument only bounds the recursion; it is called with
    fuel > length of the text, which one step per consumed character can
    never exhaust, and the fuel-0 fallback keeps the concatenation
    invariant. -/
def splitOnSubF (sep : List Char) : Nat → List Char → List Char → List (List Char)
  | 0, t, acc => [acc.reverse ++ t]
  | fuel + 1, t, acc =>
    match t with
    | [] => [acc.reverse]
    | c :: rest =>
      if sep ≠ [] ∧ sep.isPrefixOf (c :: rest) then
        acc.reverse :: splitOnSubF sep fuel ((c :: rest).drop sep.length) []
      else
        splitOnSubF sep fuel rest (c :: acc)

/-- langchain.text_splitter._split_text_with_regex with keep_separator=True:
    for an empty separator the text becomes the list of its characters; for a
    non-empty separator the pieces after the first get the separator
    re-attached in front; empty fragments are filtered out. -/
def split_text_with_regex (sep t : List Char) : List (List Char) :=
  if sep = [] then (t.map (fun c => [c])).filter (fun s => s ≠ [])
  else
    match splitOnSubF sep (t.length + 1) t [] with
    | [] => []
    | p :: ps => (p :: ps.map (fun q => sep ++ q)).filter (fun s => s ≠ [])

/-- The overlap pop-loop inside TextSplitter._merge_splits (the joining
    separator is "" here since keep_separator=True, so its length is 0):
    drop splits from the front of the current document while the running
    total exceeds chunk_overlap (or the next split would not fit). -/
def popLoop (dl : Nat) : List (List Char) → Nat → List (List Char) × Nat
  | [], total => ([], total)
  | c :: rest, total =>
    if chunk_overlap < total ∨ (chunk_size < total + dl ∧ 0 < total) then
      popLoop dl rest (total - c.length)
    else (c :: rest, total)

/-- TextSplitter._join_docs with separator "": concatenate and strip;
    a whitespace-only result becomes None and is not emitted. -/
def joinStrip (cur : List (List Char)) : List (List Char) :=
  let t := stripPy cur.flatten
  if t = [] then [] else [t]

/-- The loop body of TextSplitter._merge_splits (separator "", so the
    separator length contributions are all 0). -/
def mergeGo : List (List Char) → List (List Char) → Nat → List (List Char) → List (List Char)
  | [], cur, _, docs => docs ++ joinStrip cur
  | d :: rest, cur, total, docs =>
    if chunk_size < total + d.length ∧ cur ≠ [] then
      mergeGo rest ((popLoop d.length cur total).1 ++ [d])
        ((popLoop d.length cur total).2 + d.length) (docs ++ joinStrip cur)
    else
      mergeGo rest (cur ++ [d]) (total + d.length) docs

/-- TextSplitter._merge_splits. -/
def merge_splits (splits : List (List Char)) : List (List Char) :=
  mergeGo splits [] 0 []

/-- The split-processing loop of RecursiveCharacterTextSplitter._split_text:
    accumulate good (small) splits; on an oversized split flush the merged
    good splits, then either keep the oversized split as-is (no separators
    left) or recurse into it. `recurse` is the recursive call at the
    remaining separators, `noRec` tells whether that list is empty. -/
def process_splits (recurse : List Char → List (List Char)) (noRec : Bool) :
    List (List Char) → List (List Char) → List (List Char)
  | [], good => merge_splits good
  | s :: rest, good =>
    if s.length < chunk_size then process_splits recurse noRec rest (good ++ [s])
    else
      merge_splits good ++
      (if noRec then [s] else recurse s) ++
      process_splits recurse noRec rest []

/-- RecursiveCharacterTextSplitter._split_text. The fuel bounds the depth of
    recursion into the remaining-separator lists; each recursion strictly
    shortens that list, so fuel = number of separators + 1 is never
    exhausted for the configured separator list. -/
def split_text_go : Nat → List (List Char) → List Char → List (List Char)
  | 0, _, _ => []
  | fuel + 1, seps, t =>
    process_splits (fun s => split_text_go fuel (chooseSep t seps).2 s)
      (chooseSep t seps).2.isEmpty
      (split_text_with_regex (chooseSep t seps).1 t) []

/-- The separator list configured in DocumentProcessor.__init__. -/
def separators : List (List Char) := [['\n', '\n'], ['\n'], [' '], []]

/-- RecursiveCharacterTextSplitter.split_text with the processor's
    configuration. -/
def split_text (t : List Char) : List (List Char) :=
  split_text_go (separators.length + 1) separators t

/-- The langchain Document records built by DocumentProcessor.chunk_text. -/
structure LangchainDocument where
  page_content : List Char
  document_id : String
  chunk_id : Nat
  chunk_index : Nat
  total_chunks : Nat
deriving DecidableEq

/-- DocumentProcessor.chunk_text: split the text and wrap each chunk with
    its index metadata. -/
def chunk_text (text : List Char) (document_id : String) : List LangchainDocument :=
  let chunks := split_text text
  chunks.enum.map (fun ic =>
    { page_content := ic.2
      document_id := document_id
      chunk_id := ic.1
      chunk_index := ic.1
      total_chunks := chunks.length })

/-- Sum of the lengths of a list of splits (the running total tracked by
    _merge_splits). -/
def sumLen (l : List (List Char)) : Nat := (l.map List.length).sum

/-- Reference form of character-fallback chunking: windows of chunk_size
    characters advancing by chunk_size - chunk_overlap. -/
def slide (cs : List Char) : List (List Char) :=
  if h0 : cs = [] then []
  else if h1 : cs.length ≤ chunk_size then [cs]
  else cs.take chunk_size :: slide (cs.drop (chunk_size - chunk_overlap))
termination_by cs.length
decreasing_by
  have h2 : 0 < cs.length := List.length_pos.mpr h0
  have h3 : chunk_size < cs.length := Nat.lt_of_not_le h1
  simp only [List.length_drop, chunk_size, chunk_overlap] at *
  omega

/-- Concatenation of chunks with the overlap prefix (chunk_overlap
    characters) removed from every chunk after the first. -/
def deoverlap (chunks : List (List Char)) : List Char :=
  match chunks with
  | [] => []
  | c :: rest => c ++ (rest.map (List.drop chunk_overlap)).flatten

/-- Flexible reading of de-overlapped concatenation: there are per-chunk
    overlap amounts (none for the first chunk) whose removal makes the
    chunks concatenate to the text. -/
def reconstructsFrom (chunks : List (List Char)) (ds : List Nat) (t : List Char) : Prop :=
  ds.length = chunks.length ∧ ds.head? = some 0 ∧
    (List.zipWith List.drop ds chunks).flatten = t

/- ===== Email extraction (DocumentProcessor.process_email) ===== -/

mutual
/-- A parsed MIME part: a leaf with a content type and decoded payload, or a
    multipart container with a content type and sub-parts. -/
inductive EmailPart : Type where
  | leaf : String → String → EmailPart
  | multi : String → PartList → EmailPart
/-- List of sub-parts of a multipart message. -/
inductive PartList : Type where
  | nil : PartList
  | cons : EmailPart → PartList → PartList
end

/-- Message.get_content_type(). -/
def content_type : EmailPart → String
  | .leaf ct _ => ct
  | .multi ct _ => ct

/-- Message.get_payload(decode=True) followed by .decode(): on a multipart
    container the payload is None, so the .decode() call raises (modelled
    as none). -/
def get_payload_decoded : EmailPart → Option String
  | .leaf _ p => some p
  | .multi _ _ => none

/-- Message.is_multipart(). -/
def is_multipart : EmailPart → Bool
  | .multi _ _ => true
  | .leaf _ _ => false

mutual
/-- Message.walk(): depth-first traversal, the part itself first. -/
def walk : EmailPart → List EmailPart
  | .leaf ct pl => [.leaf ct pl]
  | .multi ct ps => .multi ct ps :: walkParts ps
/-- walk over a list of sub-parts. -/
def walkParts : PartList → List EmailPart
  | .nil => []
  | .cons p ps => walk p ++ walkParts ps
end

/-- A parsed email message: the subject header and the root MIME part. -/
structure EmailMessage where
  subject : String
  root : EmailPart

/-- DocumentProcessor.process_email, the extracted text only: prefix the
    subject line, then for a multipart message append the decoded payload
    of the first text/plain part found by walk() (breaking after it, with
    no fallback when none exists); for a non-multipart message append the
    decoded top-level payload. `none` is the exception path (the decode of
    a None payload raises). -/
def process_email (msg : EmailMessage) : Option String :=
  let text := "Subject: " ++ msg.subject ++ "\n\n"
  if is_multipart msg.root then
    match (walk msg.root).find? (fun p => content_type p = "text/plain") with
    | some p => (get_payload_decoded p).map (fun body => text ++ body)
    | none => some text
  else
    (get_payload_decoded msg.root).map (fun body => text ++ body)

/- ===== Router layer (routers/document_router.py) ===== -/

/-- The per-document metadata record stored in document_store. -/
structure DocMeta where
  filename : String
  file_type : String
  total_chunks : Nat
  upload_time : String
  document_type : String
deriving DecidableEq

/-- The module-level in-memory stores document_store and document_chunks,
    as association lists keyed by document id (kept duplicate-free by
    construction, matching dict semantics). -/
structure AppState where
  document_store : List (String × DocMeta)
  document_chunks : List (String × List String)
deriving DecidableEq

/-- dict lookup (first matching key). -/
def alookup {β : Type} : List (String × β) → String → Option β
  | [], _ => none
  | (k', v) :: rest, k => if k' = k then some v else alookup rest k

/-- dict key deletion. -/
def aerase {β : Type} (l : List (String × β)) (k : String) : List (String × β) :=
  l.filter (fun kv => kv.1 ≠ k)

/-- fastapi.HTTPException (status_code, detail). -/
structure HTTPException where
  status_code : Nat
  detail : String
deriving DecidableEq

/-- str(HTTPException): starlette renders it as "status_code: detail". -/
def str_of_exc (e : HTTPException) : String :=
  toString e.status_code ++ ": " ++ e.detail

/-- The `except Exception as e: raise HTTPException(status_code=500,
    detail=str(e))` wrapper around every route body. Note that an
    HTTPException raised inside the try block is itself an Exception and is
    therefore caught and re-wrapped with status 500. -/
def wrap500 {α : Type} : Except HTTPException α → Except HTTPException α
  | .ok a => .ok a
  | .error e => .error { status_code := 500, detail := str_of_exc e }

/-- The processed-document dict returned by
    DocumentProcessor.process_document, as consumed by upload_document. -/
structure ProcessResult where
  document_id : String
  filename : String
  file_type : String
  chunks : List String
  total_chunks : Nat
  upload_time : String
deriving DecidableEq

/-- models.schemas.DocumentUploadResponse. -/
structure DocumentUploadResponse where
  filename : String
  document_id : String
  status : String
  message : String
deriving DecidableEq

/-- upload_document, lines 64-81: store the metadata (document_type
    defaulted to "unknown"), store the chunks, and answer success. The
    processing result is passed in (file reading and extraction happen
    before these lines). -/
def upload_document (st : AppState) (result : ProcessResult) :
    AppState × DocumentUploadResponse :=
  let meta : DocMeta :=
    { filename := result.filename
      file_type := result.file_type
      total_chunks := result.total_chunks
      upload_time := result.upload_time
      document_type := "unknown" }
  let st' : AppState :=
    { document_store := (result.document_id, meta) :: aerase st.document_store result.document_id
      document_chunks := (result.document_id, result.chunks) :: aerase st.document_chunks result.document_id }
  (st',
    { filename := result.filename
      document_id := result.document_id
      status := "success"
      message := "Document processed successfully. " ++ toString result.total_chunks ++ " chunks created." })

/-- models.schemas.EmbeddingRequest. -/
structure EmbeddingRequest where
  document_id : String
  document_type : String := "unknown"
deriving DecidableEq

/-- models.schemas.EmbeddingResponse. -/
structure EmbeddingResponse where
  document_id : String
  status : String
  chunks_processed : Nat
  vectors_stored : Nat
  message : String
deriving DecidableEq

/-- embed_document: 404 on unknown document id or missing chunks, else store
    embeddings (the external embedding_service.store_embeddings is passed in
    as a function returning the vectors_stored count) — all wrapped by the
    blanket except clause. -/
def embed_document (st : AppState) (store_embeddings : List String → String → Nat)
    (request : EmbeddingRequest) : Except HTTPException EmbeddingResponse :=
  wrap500 (
    if alookup st.document_store request.document_id = none then
      .error { status_code := 404, detail := "Document not found" }
    else if alookup st.document_chunks request.document_id = none then
      .error { status_code := 404, detail := "Document chunks not found" }
    else
      let chunks := (alookup st.document_chunks request.document_id).getD []
      let n := store_embeddings chunks request.document_type
      .ok
        { document_id := request.document_id
          status := "success"
          chunks_processed := n
          vectors_stored := n
          message := "Embeddings generated successfully" })

/-- delete_document: 404 on unknown id, else delete the metadata entry only
    (the code's own comment notes that embeddings and chunks would be
    deleted "in a real system") — wrapped by the blanket except clause. -/
def delete_document (st : AppState) (document_id : String) :
    Except HTTPException (AppState × String) :=
  wrap500 (
    if alookup st.document_store document_id = none then
      .error { status_code := 404, detail := "Document not found" }
    else
      .ok ({ st with document_store := aerase st.document_store document_id },
        "Document deleted successfully"))

/-- A similarity-search hit as used by query_document (only its "text"
    field is read by the router). -/
structure Hit where
  text : String
deriving DecidableEq

/-- models.schemas.QueryRequest. -/
structure QueryRequest where
  question : String
  document_type : String := "unknown"
deriving DecidableEq

/-- models.schemas.ScoreDetails. -/
structure ScoreDetails where
  document_type : String
  question_weight : ℚ
  document_weight : ℚ
  score : ℚ
deriving DecidableEq

/-- models.schemas.QueryResponse. -/
structure QueryResponse where
  answer : String
  justification : String
  matched_clauses : List String
  score_details : ScoreDetails
  confidence : ℚ
deriving DecidableEq

/-- The free outputs of the external language-capability provider. -/
structure ProviderOutput where
  answer : String
  justification : String
  matched_clauses : List String
  strength : ℚ
  raw_confidence : ℚ

/-- The dict returned by LLMService.generate_answer. -/
structure LLMResponse where
  answer : String
  justification : String
  matched_clauses : List String
  score_details : ScoreDetails
  confidence : ℚ

/-- Modelled from the spec: services/llm_service.py (LLMService.generate_answer)
    and services/scoring_service.py are not under src/. Per sections 4.4-4.5
    and 6, the provider supplies answer, justification and matched clauses,
    while the score details follow the weight table (question_weight always
    2.0; document_weight 2.0 for document type "unknown" and 0.5 otherwise,
    matching the router's own zero-result branch) and confidence is clamped
    to the interval from 0 to 1. -/
def generate_answer (provider : String → List String → String → ProviderOutput)
    (question : String) (context_chunks : List String) (document_type : String) :
    LLMResponse :=
  let p := provider question context_chunks document_type
  { answer := p.answer
    justification := p.justification
    matched_clauses := p.matched_clauses
    score_details :=
      { document_type := document_type
        question_weight := 2
        document_weight := if document_type = "unknown" then 2 else 0.5
        score := p.strength }
    confidence := max 0 (min 1 p.raw_confidence) }

/-- query_document, lines 114-157: run the external similarity search
    (search_similar, passed in; called with top_k = 5), keep the non-empty
    hit texts, answer the fixed no-relevant-information response when none
    remain, and otherwise pass the context to generate_answer. The module
    state is in scope but never consulted. -/
def query_document (st : AppState)
    (provider : String → List String → String → ProviderOutput)
    (search_similar : String → Nat → String → List Hit)
    (request : QueryRequest) : QueryResponse :=
  let search_results := search_similar request.question 5 request.document_type
  let context_chunks := (search_results.map Hit.text).filter (fun t => t ≠ "")
  if context_chunks = [] then
    { answer := "No relevant information found in the uploaded documents for your question."
      justification := "The search did not return any relevant document chunks for your query."
      matched_clauses := []
      score_details :=
        { document_type := request.document_type
          question_weight := 2
          document_weight := if request.document_type = "unknown" then 2 else 0.5
          score := 0 }
      confidence := 0 }
  else
    let llm_response := generate_answer provider request.question context_chunks request.document_type
    { answer := llm_response.answer
      justification := llm_response.justification
      matched_clauses := llm_response.matched_clauses
      score_details := llm_response.score_details
      confidence := llm_response.confidence }

/- ===== Concrete fixtures used by closed theorems ===== -/

/-- A provider that cites exactly the context it is given (allowed by the
    synthesizer contract: matched clauses are a subset of the context). -/
def providerCite : String → List String → String → ProviderOutput :=
  fun _ ctx _ => { answer := "ans", justification := "just", matched_clauses := ctx, strength := 1, raw_confidence := 1 }

/-- A provider returning nothing of interest. -/
def providerTrivial : String → List String → String → ProviderOutput :=
  fun _ _ _ => { answer := "", justification := "", matched_clauses := [], strength := 0, raw_confidence := 0 }

/-- A search function that always returns no hits. -/
def searchEmptyHits : String → Nat → String → List Hit := fun _ _ _ => []

/-- A state holding one document d1 with one stored chunk. -/
def stOne : AppState :=
  { document_store := [("d1", { filename := "a.pdf", file_type := "pdf", total_chunks := 1, upload_time := "t", document_type := "unknown" })]
    document_chunks := [("d1", ["secret clause"])] }

/-- stOne after deleting d1's metadata. -/
def stOneDeleted : AppState :=
  { document_store := []
    document_chunks := [("d1", ["secret clause"])] }

/-- A search function returning a non-empty hit list whose hits all carry
    empty text. -/
def searchEmptyTextHits : String → Nat → String → List Hit :=
  fun _ _ _ => [{ text := "" }, { text := "" }]

/-- A search function that (still) returns the deleted document's chunk. -/
def searchSecret : String → Nat → String → List Hit :=
  fun _ _ _ => [{ text := "secret clause" }]

/-- A search function returning a mix of an empty-text hit and a
    contentful hit. -/
def searchMixed : String → Nat → String → List Hit :=
  fun _ _ _ => [{ text := "" }, { text := "good clause" }]

/- ===== Helper lemmas: splitting and joining ===== -/

/-- Joining a split list with the separator re-attached to later pieces. -/
def joinWithSep (sep : List Char) : List (List Char) → List Char
  | [] => []
  | p :: ps => p ++ (ps.map (fun q => sep ++ q)).flatten

theorem flatten_map_singleton (t : List Char) :
    (t.map (fun c => [c])).flatten = t := by
  induction t with
  | nil => rfl
  | cons c rest ih => simp [ih]

theorem filter_singletons (t : List Char) :
    (t.map (fun c => [c])).filter (fun s => s ≠ []) = t.map (fun c => [c]) := by
  apply List.filter_eq_self.mpr
  intro a ha
  obtain ⟨c, _, rfl⟩ := List.mem_map.mp ha
  simp

theorem flatten_filter_ne (l : List (List Char)) :
    (l.filter (fun s => s ≠ [])).flatten = l.flatten := by
  induction l with
  | nil => rfl
  | cons a rest ih =>
    rw [List.filter_cons]
    by_cases ha : a = []
    · subst ha
      rw [if_neg (by simp)]
      simpa using ih
    · rw [if_pos (by simp [ha])]
      simp only [List.flatten_cons]
      rw [ih]

theorem isPrefixOf_append_drop :
    ∀ (s l : List Char), s.isPrefixOf l = true → s ++ l.drop s.length = l := by
  intro s
  induction s with
  | nil => intro l _; simp
  | cons a s ih =>
    intro l h
    cases l with
    | nil => simp [List.isPrefixOf] at h
    | cons b bs =>
      simp only [List.isPrefixOf, Bool.and_eq_true, beq_iff_eq] at h
      obtain ⟨rfl, h2⟩ := h
      simpa using ih bs h2

theorem splitOnSubF_ne_nil (sep : List Char) :
    ∀ (fuel : Nat) (t acc : List Char), splitOnSubF sep fuel t acc ≠ [] := by
  intro fuel
  induction fuel with
  | zero => intro t acc; simp [splitOnSubF]
  | succ fuel ih =>
    intro t acc
    match t with
    | [] => simp [splitOnSubF]
    | c :: rest =>
      simp only [splitOnSubF]
      by_cases h : sep ≠ [] ∧ sep.isPrefixOf (c :: rest)
      · rw [if_pos h]; simp
      · rw [if_neg h]; exact ih rest (c :: acc)

theorem mapSep_flatten (sep : List Char) (res : List (List Char)) (h : res ≠ []) :
    (res.map (fun q => sep ++ q)).flatten = sep ++ joinWithSep sep res := by
  cases res with
  | nil => exact absurd rfl h
  | cons q qs => simp [joinWithSep, List.append_assoc]

theorem splitOnSubF_join (sep : List Char) :
    ∀ (fuel : Nat) (t acc : List Char),
      joinWithSep sep (splitOnSubF sep fuel t acc) = acc.reverse ++ t := by
  intro fuel
  induction fuel with
  | zero => intro t acc; simp [splitOnSubF, joinWithSep]
  | succ fuel ih =>
    intro t acc
    match t with
    | [] => simp [splitOnSubF, joinWithSep]
    | c :: rest =>
      simp only [splitOnSubF]
      by_cases h : sep ≠ [] ∧ sep.isPrefixOf (c :: rest)
      · rw [if_pos h]
        have hne := splitOnSubF_ne_nil sep fuel ((c :: rest).drop sep.length) []
        simp only [joinWithSep]
        rw [mapSep_flatten sep _ hne, ih ((c :: rest).drop sep.length) []]
        simp only [List.reverse_nil, List.nil_append]
        rw [isPrefixOf_append_drop sep (c :: rest) h.2]
      · rw [if_neg h, ih rest (c :: acc)]
        simp

theorem join_split_text_with_regex (sep t : List Char) :
    (split_text_with_regex sep t).flatten = t := by
  by_cases hsep : sep = []
  · subst hsep
    rw [split_text_with_regex, if_pos rfl, filter_singletons, flatten_map_singleton]
  · simp only [split_text_with_regex, if_neg hsep]
    have hne := splitOnSubF_ne_nil sep (t.length + 1) t []
    have hj := splitOnSubF_join sep (t.length + 1) t []
    match hres : splitOnSubF sep (t.length + 1) t [] with
    | [] => exact absurd hres hne
    | p :: ps =>
      rw [hres] at hj
      simp only [joinWithSep, List.reverse_nil, List.nil_append] at hj
      rw [flatten_filter_ne]
      simpa using hj

theorem mem_length_le_flatten {s : List Char} :
    ∀ {l : List (List Char)}, s ∈ l → s.length ≤ l.flatten.length := by
  intro l
  induction l with
  | nil => intro h; simp at h
  | cons a rest ih =>
    intro h
    rcases List.mem_cons.mp h with h1 | h2
    · subst h1; simp [List.length_append]
    · have := ih h2
      simp only [List.flatten_cons, List.length_append]
      omega

theorem sumLen_nil : sumLen [] = 0 := rfl

theorem sumLen_cons (a : List Char) (l : List (List Char)) :
    sumLen (a :: l) = a.length + sumLen l := by
  simp [sumLen]

theorem sumLen_append (a b : List (List Char)) :
    sumLen (a ++ b) = sumLen a + sumLen b := by
  simp [sumLen]

theorem sumLen_eq_length_flatten (l : List (List Char)) :
    sumLen l = l.flatten.length := by
  simp [sumLen, List.length_flatten]

/- ===== Helper lemmas: the merge loop on small inputs ===== -/

theorem process_splits_good (recurse : List Char → List (List Char)) (noRec : Bool) :
    ∀ (splits good : List (List Char)), (∀ s ∈ splits, s.length < chunk_size) →
      process_splits recurse noRec splits good = merge_splits (good ++ splits) := by
  intro splits
  induction splits with
  | nil => intro good _; simp [process_splits]
  | cons s rest ih =>
    intro good h
    have hs : s.length < chunk_size := h s (by simp)
    simp only [process_splits, if_pos hs]
    rw [ih (good ++ [s]) (fun x hx => h x (by simp [hx]))]
    simp

theorem mergeGo_small :
    ∀ (splits cur docs : List (List Char)),
      sumLen cur + sumLen splits ≤ chunk_size →
      mergeGo splits cur (sumLen cur) docs = docs ++ joinStrip (cur ++ splits) := by
  intro splits
  induction splits with
  | nil => intro cur docs _; simp [mergeGo]
  | cons d rest ih =>
    intro cur docs h
    have hd : ¬ (chunk_size < sumLen cur + d.length ∧ cur ≠ []) := by
      intro hc
      have : d.length ≤ sumLen (d :: rest) := by rw [sumLen_cons]; omega
      omega
    simp only [mergeGo, if_neg hd]
    have hc : sumLen cur + d.length = sumLen (cur ++ [d]) := by
      rw [sumLen_append, sumLen_cons, sumLen_nil]; omega
    rw [hc, ih (cur ++ [d]) docs (by rw [← hc]; rw [sumLen_cons] at h; omega)]
    simp

theorem merge_splits_small (splits : List (List Char))
    (h : sumLen splits ≤ chunk_size) :
    merge_splits splits = joinStrip splits := by
  have h0 : (0 : Nat) = sumLen [] := rfl
  rw [merge_splits, h0, mergeGo_small splits [] [] (by rw [← h0]; simpa using h)]
  simp

/- ===== Short-text characterization of split_text ===== -/

theorem split_text_short (t : List Char) (hlen : t.length < chunk_size) :
    split_text t = if stripPy t = [] then [] else [stripPy t] := by
  rw [split_text]
  simp only [split_text_go]
  have hjoin : (split_text_with_regex (chooseSep t separators).1 t).flatten = t :=
    join_split_text_with_regex _ t
  have hgood : ∀ s ∈ split_text_with_regex (chooseSep t separators).1 t, s.length < chunk_size := by
    intro s hs
    have h1 := mem_length_le_flatten hs
    rw [hjoin] at h1
    omega
  rw [process_splits_good _ _ _ [] hgood, List.nil_append]
  rw [merge_splits_small _ (by rw [sumLen_eq_length_flatten, hjoin]; omega)]
  simp [joinStrip, hjoin]

/- ===== Claim C5 ===== -/

/-- Claim C5 counterexample: the single-space text has length below
    chunk_size yet the Chunker returns zero chunks (the whitespace-only
    join is stripped to empty and dropped), so "every text shorter than
    chunk_size yields exactly one chunk" is false as stated. -/
theorem C5_counterexample_whitespace_text :
    ([' '] : List Char).length < chunk_size ∧ (chunk_text [' '] "doc").length ≠ 1 := by
  decide

/-- Claim C5 (amended): for every text shorter than chunk_size that is not
    empty and not whitespace-only, the Chunker returns exactly one chunk,
    namely the stripped text. -/
theorem C5_short_text_single_chunk (t : List Char) (d : String)
    (hlen : t.length < chunk_size) (hne : stripPy t ≠ []) :
    (chunk_text t d).length = 1 ∧ split_text t = [stripPy t] := by
  have h := split_text_short t hlen
  rw [if_neg hne] at h
  exact ⟨by simp [chunk_text, h], h⟩

/-- Witness for C5 at the one-character text "a". -/
theorem C5_short_text_single_chunk_witness :
    ((['a'] : List Char).length < chunk_size ∧ stripPy ['a'] ≠ []) ∧
    ((chunk_text ['a'] "doc").length = 1 ∧ split_text ['a'] = [stripPy ['a']]) :=
  ⟨⟨by decide, by decide⟩, C5_short_text_single_chunk ['a'] "doc" (by decide) (by decide)⟩

/- ===== Claim C1 ===== -/

/-- Claim C1: when the similarity search returns zero hits, query_document
    returns (not raises) the fixed no-relevant-information answer with
    score 0, confidence 0 and no matched clauses. -/
theorem C1_zero_hits_terminal_answer (st : AppState)
    (provider : String → List String → String → ProviderOutput)
    (search_similar : String → Nat → String → List Hit) (request : QueryRequest)
    (h : search_similar request.question 5 request.document_type = []) :
    (query_document st provider search_similar request).answer =
        "No relevant information found in the uploaded documents for your question." ∧
    (query_document st provider search_similar request).justification =
        "The search did not return any relevant document chunks for your query." ∧
    (query_document st provider search_similar request).matched_clauses = [] ∧
    (query_document st provider search_similar request).score_details.score = 0 ∧
    (query_document st provider search_similar request).confidence = 0 := by
  simp [query_document, h]

/-- Witness for C1 with a search function returning no hits. -/
theorem C1_zero_hits_terminal_answer_witness :
    (query_document stOne providerTrivial searchEmptyHits { question := "q" }).answer =
        "No relevant information found in the uploaded documents for your question." ∧
    (query_document stOne providerTrivial searchEmptyHits { question := "q" }).justification =
        "The search did not return any relevant document chunks for your query." ∧
    (query_document stOne providerTrivial searchEmptyHits { question := "q" }).matched_clauses = [] ∧
    (query_document stOne providerTrivial searchEmptyHits { question := "q" }).score_details.score = 0 ∧
    (query_document stOne providerTrivial searchEmptyHits { question := "q" }).confidence = 0 :=
  C1_zero_hits_terminal_answer stOne providerTrivial searchEmptyHits { question := "q" } rfl

/- ===== Claim C8 ===== -/

/-- Claim C8: empty-text hits are discarded before synthesis, for every
    query. First, removing the empty-text hits from the search results
    does not change the response at all (they have no influence on the
    answer); second, whenever some non-empty text remains, the provider is
    called on exactly the empty-text-filtered hit texts, observed through
    the returned matched clauses; and in particular, when every returned
    hit has empty text the query is answered through the zero-result
    terminal state even though the hit list is non-empty. -/
theorem C8_empty_text_hits_discarded (st : AppState)
    (provider : String → List String → String → ProviderOutput)
    (search_similar : String → Nat → String → List Hit) (request : QueryRequest) :
    query_document st provider
        (fun q k dt => (search_similar q k dt).filter (fun hit => hit.text ≠ "")) request =
      query_document st provider search_similar request ∧
    (((search_similar request.question 5 request.document_type).map Hit.text).filter
        (fun t => t ≠ "") ≠ [] →
      (query_document st provider search_similar request).matched_clauses =
        (generate_answer provider request.question
          (((search_similar request.question 5 request.document_type).map Hit.text).filter
            (fun t => t ≠ ""))
          request.document_type).matched_clauses) ∧
    ((∀ hit ∈ search_similar request.question 5 request.document_type, hit.text = "") →
      (query_document st provider search_similar request).answer =
          "No relevant information found in the uploaded documents for your question." ∧
      (query_document st provider search_similar request).matched_clauses = [] ∧
      (query_document st provider search_similar request).score_details.score = 0 ∧
      (query_document st provider search_similar request).confidence = 0) := by
  have hctx : ∀ hits : List Hit,
      ((hits.filter (fun hit => hit.text ≠ "")).map Hit.text).filter (fun t => t ≠ "") =
        (hits.map Hit.text).filter (fun t => t ≠ "") := by
    intro hits
    induction hits with
    | nil => rfl
    | cons hit rest ih =>
      by_cases hh : hit.text = ""
      · have e1 : (hit :: rest).filter (fun h => h.text ≠ "") =
            rest.filter (fun h => h.text ≠ "") := by
          rw [List.filter_cons, if_neg (by simp [hh])]
        have e2 : ((hit :: rest).map Hit.text).filter (fun t => t ≠ "") =
            (rest.map Hit.text).filter (fun t => t ≠ "") := by
          rw [List.map_cons, List.filter_cons, if_neg (by simp [hh])]
        rw [e1, e2, ih]
      · have e1 : (hit :: rest).filter (fun h => h.text ≠ "") =
            hit :: rest.filter (fun h => h.text ≠ "") := by
          rw [List.filter_cons, if_pos (by simp [hh])]
        have e2 : ((hit :: rest).map Hit.text).filter (fun t => t ≠ "") =
            hit.text :: (rest.map Hit.text).filter (fun t => t ≠ "") := by
          rw [List.map_cons, List.filter_cons, if_pos (by simp [hh])]
        rw [e1, e2, List.map_cons, List.filter_cons, if_pos (by simp [hh]), ih]
  refine ⟨?_, ?_, ?_⟩
  · simp only [query_document]
    rw [hctx (search_similar request.question 5 request.document_type)]
  · intro hne
    simp only [query_document]
    rw [if_neg hne]
  · intro h
    have hf : ((search_similar request.question 5 request.document_type).map Hit.text).filter
        (fun t => t ≠ "") = [] := by
      apply List.filter_eq_nil_iff.mpr
      intro a ha
      obtain ⟨hit, hmem, rfl⟩ := List.mem_map.mp ha
      simp [h hit hmem]
    simp only [query_document]
    rw [if_pos hf]
    exact ⟨rfl, rfl, rfl, rfl⟩

/-- Witness for C8: a mixed hit list (one empty-text hit, one contentful)
    discharges the some-context-remains hypothesis, and a non-empty list
    of only empty-text hits discharges the all-empty hypothesis. -/
theorem C8_empty_text_hits_discarded_witness :
    (query_document stOne providerCite searchMixed { question := "q" }).matched_clauses =
      (generate_answer providerCite "q"
        (((searchMixed "q" 5 "unknown").map Hit.text).filter (fun t => t ≠ ""))
        "unknown").matched_clauses ∧
    ((query_document stOne providerCite searchEmptyTextHits { question := "q" }).answer =
        "No relevant information found in the uploaded documents for your question." ∧
      (query_document stOne providerCite searchEmptyTextHits { question := "q" }).matched_clauses = [] ∧
      (query_document stOne providerCite searchEmptyTextHits { question := "q" }).score_details.score = 0 ∧
      (query_document stOne providerCite searchEmptyTextHits { question := "q" }).confidence = 0) :=
  ⟨(C8_empty_text_hits_discarded stOne providerCite searchMixed { question := "q" }).2.1
      (by decide),
   (C8_empty_text_hits_discarded stOne providerCite searchEmptyTextHits { question := "q" }).2.2
      (by decide)⟩

/- ===== Claim C3 ===== -/

/-- Claim C3: the score details of every query response follow the weight
    table: question_weight is always 2.0; document_weight is 0.5 for
    document type "known" and 2.0 for "unknown". -/
theorem C3_weight_table (st : AppState)
    (provider : String → List String → String → ProviderOutput)
    (search_similar : String → Nat → String → List Hit) (request : QueryRequest) :
    (query_document st provider search_similar request).score_details.question_weight = 2 ∧
    (request.document_type = "known" →
      (query_document st provider search_similar request).score_details.document_weight = 0.5) ∧
    (request.document_type = "unknown" →
      (query_document st provider search_similar request).score_details.document_weight = 2) := by
  have key : (query_document st provider search_similar request).score_details.question_weight = 2 ∧
      (query_document st provider search_similar request).score_details.document_weight =
        (if request.document_type = "unknown" then 2 else 0.5) := by
    by_cases hc : ((search_similar request.question 5 request.document_type).map Hit.text).filter
        (fun t => t ≠ "") = []
    · simp only [query_document]
      rw [if_pos hc]
      exact ⟨rfl, rfl⟩
    · simp only [query_document]
      rw [if_neg hc]
      exact ⟨rfl, rfl⟩
  refine ⟨key.1, ?_, ?_⟩
  · intro h
    rw [key.2, h, if_neg (by decide)]
  · intro h
    rw [key.2, h, if_pos rfl]

/-- Witness for C3 at concrete "known" and "unknown" requests. -/
theorem C3_weight_table_witness :
    (query_document stOne providerTrivial searchEmptyHits
      { question := "q", document_type := "known" }).score_details.document_weight = 0.5 ∧
    (query_document stOne providerTrivial searchEmptyHits
      { question := "q", document_type := "unknown" }).score_details.document_weight = 2 ∧
    (query_document stOne providerTrivial searchEmptyHits
      { question := "q", document_type := "known" }).score_details.question_weight = 2 :=
  ⟨(C3_weight_table stOne providerTrivial searchEmptyHits
      { question := "q", document_type := "known" }).2.1 rfl,
   (C3_weight_table stOne providerTrivial searchEmptyHits
      { question := "q", document_type := "unknown" }).2.2 rfl,
   (C3_weight_table stOne providerTrivial searchEmptyHits
      { question := "q", document_type := "known" }).1⟩

/- ===== Claim C9 ===== -/

theorem alookup_aerase {β : Type} (l : List (String × β)) (k : String) :
    alookup (aerase l k) k = none := by
  induction l with
  | nil => rfl
  | cons kv rest ih =>
    obtain ⟨k', v⟩ := kv
    rw [aerase, List.filter_cons]
    by_cases hk : k' = k
    · rw [if_neg (by simp [hk])]
      exact ih
    · rw [if_pos (by simp [hk])]
      show alookup ((k', v) :: List.filter _ rest) k = none
      rw [alookup, if_neg hk]
      exact ih

/-- Claim C9: a successful delete removes the metadata entry and leaves the
    chunk store untouched (delete modifies only document_store). -/
theorem C9_delete_only_metadata (st : AppState) (id : String)
    (h : alookup st.document_store id ≠ none) :
    delete_document st id =
      .ok ({ st with document_store := aerase st.document_store id },
        "Document deleted successfully") ∧
    ({ st with document_store := aerase st.document_store id } : AppState).document_chunks
      = st.document_chunks ∧
    alookup (aerase st.document_store id) id = none := by
  refine ⟨?_, rfl, alookup_aerase st.document_store id⟩
  simp [delete_document, wrap500, h]

/-- Witness for C9 on the one-document state. -/
theorem C9_delete_only_metadata_witness :
    delete_document stOne "d1" =
      .ok ({ stOne with document_store := aerase stOne.document_store "d1" },
        "Document deleted successfully") ∧
    ({ stOne with document_store := aerase stOne.document_store "d1" } : AppState).document_chunks
      = stOne.document_chunks ∧
    alookup (aerase stOne.document_store "d1") "d1" = none :=
  C9_delete_only_metadata stOne "d1" (by decide)

/- ===== Claim C10 ===== -/

/-- Claim C10: every successful upload stores its metadata with
    document_type "unknown", regardless of the processed result. -/
theorem C10_upload_stores_unknown (st : AppState) (result : ProcessResult) :
    alookup (upload_document st result).1.document_store result.document_id =
      some { filename := result.filename, file_type := result.file_type,
             total_chunks := result.total_chunks, upload_time := result.upload_time,
             document_type := "unknown" } := by
  simp [upload_document, alookup]

/- ===== Claim C6 ===== -/

/-- Claim C6 (code bug): a delete or embed request with an unknown document
    id does NOT fail with the distinct 404 NotFound error; the raised
    HTTPException(404, "Document not found") is caught by the blanket
    except-Exception clause of the same handler and re-raised as a generic
    500 whose detail is the string rendering of the original exception. -/
theorem C6_notfound_wrapped_into_500 :
    delete_document { document_store := [], document_chunks := [] } "missing" =
      .error { status_code := 500, detail := "404: Document not found" } ∧
    embed_document { document_store := [], document_chunks := [] } (fun _ _ => 0)
        { document_id := "missing" } =
      .error { status_code := 500, detail := "404: Document not found" } :=
  ⟨rfl, rfl⟩

/- ===== Claim C2 ===== -/

/-- Claim C2 counterexample: after successfully deleting document d1, a
    query whose search still returns d1's stored chunk text surfaces that
    very chunk in the matched clauses — nothing filters chunks of deleted
    documents out of retrieval results. -/
theorem C2_counterexample_deleted_chunk_resurfaces :
    delete_document stOne "d1" = .ok (stOneDeleted, "Document deleted successfully") ∧
    alookup stOne.document_chunks "d1" = some ["secret clause"] ∧
    "secret clause" ∈ (query_document stOneDeleted providerCite searchSecret
        { question := "q" }).matched_clauses := by
  refine ⟨rfl, rfl, ?_⟩
  decide

/-- Claim C2 (amended): a successful delete removes only the metadata entry
    and leaves the chunk store unchanged, and query behaviour is entirely
    unaffected by the deletion — query_document consults no store and
    applies no filtering by deleted document ids. -/
theorem C2_amended_no_deleted_id_filtering (st st' : AppState) (id msg : String)
    (provider : String → List String → String → ProviderOutput)
    (search_similar : String → Nat → String → List Hit) (request : QueryRequest)
    (h : delete_document st id = .ok (st', msg)) :
    st'.document_chunks = st.document_chunks ∧
    query_document st' provider search_similar request =
      query_document st provider search_similar request := by
  refine ⟨?_, rfl⟩
  by_cases hc : alookup st.document_store id = none
  · simp [delete_document, wrap500, hc] at h
  · simp [delete_document, wrap500, hc] at h
    rw [← h.1]

/-- Witness for the amended C2 on the one-document state. -/
theorem C2_amended_no_deleted_id_filtering_witness :
    stOneDeleted.document_chunks = stOne.document_chunks ∧
    query_document stOneDeleted providerTrivial searchEmptyHits { question := "q" } =
      query_document stOne providerTrivial searchEmptyHits { question := "q" } :=
  C2_amended_no_deleted_id_filtering stOne stOneDeleted "d1" "Document deleted successfully"
    providerTrivial searchEmptyHits { question := "q" } rfl

/- ===== Claim C7 ===== -/

/-- Claim C7 (amended): the extracted email text always begins with the
    synthetic subject line; for a multipart body the decoded payload of the
    first text/plain part found by the traversal is appended; for a
    non-multipart message the top-level payload is appended; a multipart
    message with no text/plain part gets no body at all (there is no
    fallback to the top-level payload in that case). -/
theorem C7_email_extraction (msg : EmailMessage) :
    (∀ out, process_email msg = some out →
      ∃ rest, out = ("Subject: " ++ msg.subject ++ "\n\n") ++ rest) ∧
    (is_multipart msg.root = false →
      process_email msg = (get_payload_decoded msg.root).map
        (fun body => ("Subject: " ++ msg.subject ++ "\n\n") ++ body)) ∧
    (∀ p, is_multipart msg.root = true →
      (walk msg.root).find? (fun q => content_type q = "text/plain") = some p →
      process_email msg = (get_payload_decoded p).map
        (fun body => ("Subject: " ++ msg.subject ++ "\n\n") ++ body)) ∧
    (is_multipart msg.root = true →
      (walk msg.root).find? (fun q => content_type q = "text/plain") = none →
      process_email msg = some ("Subject: " ++ msg.subject ++ "\n\n")) := by
  have h2 : is_multipart msg.root = false →
      process_email msg = (get_payload_decoded msg.root).map
        (fun body => ("Subject: " ++ msg.subject ++ "\n\n") ++ body) := by
    intro hm
    unfold process_email
    rw [if_neg (by simp [hm])]
  have h3 : ∀ p, is_multipart msg.root = true →
      (walk msg.root).find? (fun q => content_type q = "text/plain") = some p →
      process_email msg = (get_payload_decoded p).map
        (fun body => ("Subject: " ++ msg.subject ++ "\n\n") ++ body) := by
    intro p hm hfind
    unfold process_email
    rw [if_pos hm, hfind]
  have h4 : is_multipart msg.root = true →
      (walk msg.root).find? (fun q => content_type q = "text/plain") = none →
      process_email msg = some ("Subject: " ++ msg.subject ++ "\n\n") := by
    intro hm hfind
    unfold process_email
    rw [if_pos hm, hfind]
  refine ⟨?_, h2, h3, h4⟩
  intro out hout
  by_cases hm : is_multipart msg.root
  · cases hfind : (walk msg.root).find? (fun q => content_type q = "text/plain") with
    | none =>
      rw [h4 hm hfind] at hout
      simp only [Option.some.injEq] at hout
      exact ⟨"", by rw [← hout, String.append_empty]⟩
    | some p =>
      rw [h3 p hm hfind] at hout
      cases hp : get_payload_decoded p with
      | none => rw [hp] at hout; simp at hout
      | some body =>
        rw [hp] at hout
        simp only [Option.map_some', Option.some.injEq] at hout
        exact ⟨body, hout.symm⟩
  · rw [h2 (by simpa using hm)] at hout
    cases hp : get_payload_decoded msg.root with
    | none => rw [hp] at hout; simp at hout
    | some body =>
      rw [hp] at hout
      simp only [Option.map_some', Option.some.injEq] at hout
      exact ⟨body, hout.symm⟩

/-- Witness for C7 on a non-multipart text/plain message. -/
theorem C7_email_extraction_witness :
    process_email { subject := "Hi", root := .leaf "text/plain" "Hello" } =
      (get_payload_decoded (.leaf "text/plain" "Hello")).map
        (fun body => ("Subject: " ++ "Hi" ++ "\n\n") ++ body) :=
  (C7_email_extraction { subject := "Hi", root := .leaf "text/plain" "Hello" }).2.1 rfl

/-- Claim C7 counterexample: a multipart message containing only a
    text/html part yields just the subject line — the claimed fallback to
    the top-level payload does not happen. -/
theorem C7_counterexample_no_fallback :
    process_email
        { subject := "s",
          root := .multi "multipart/alternative" (.cons (.leaf "text/html" "payload-html") .nil) } =
      some "Subject: s\n\n" ∧
    (walk (.multi "multipart/alternative" (.cons (.leaf "text/html" "payload-html") .nil))).find?
        (fun q => content_type q = "text/plain") = none ∧
    some ("Subject: s\n\n") ≠ some (("Subject: " ++ "s" ++ "\n\n") ++ "payload-html") := by
  refine ⟨?_, ?_, by decide⟩
  · rfl
  · rfl

/- ===== Claim C4: whitespace-free texts chunk by sliding windows ===== -/

theorem mem_of_containsSub {c : Char} {s t : List Char}
    (h : containsSub (c :: s) t = true) : c ∈ t := by
  induction t with
  | nil => simp [containsSub, List.isPrefixOf] at h
  | cons b rest ih =>
    rw [containsSub, Bool.or_eq_true] at h
    rcases h with h | h
    · simp only [List.isPrefixOf, Bool.and_eq_true, beq_iff_eq] at h
      rw [h.1]
      exact List.mem_cons_self b rest
    · exact List.mem_cons_of_mem b (ih h)

theorem chooseSep_no_ws (t : List Char) (h : ∀ c ∈ t, isPySpace c = false) :
    chooseSep t separators = ([], []) := by
  have hnl : ('\n' : Char) ∉ t := fun hmem => absurd (h '\n' hmem) (by decide)
  have hsp : (' ' : Char) ∉ t := fun hmem => absurd (h ' ' hmem) (by decide)
  have h1 : containsSub ['\n', '\n'] t = false := by
    cases hcc : containsSub ['\n', '\n'] t with
    | false => rfl
    | true => exact absurd (mem_of_containsSub hcc) hnl
  have h2 : containsSub ['\n'] t = false := by
    cases hcc : containsSub ['\n'] t with
    | false => rfl
    | true => exact absurd (mem_of_containsSub hcc) hnl
  have h3 : containsSub [' '] t = false := by
    cases hcc : containsSub [' '] t with
    | false => rfl
    | true => exact absurd (mem_of_containsSub hcc) hsp
  rw [chooseSep, separators]
  show chooseSepAux t _ _ = ([], [])
  rw [chooseSepAux, if_neg (by decide), if_neg (by simp [h1])]
  rw [chooseSepAux, if_neg (by decide), if_neg (by simp [h2])]
  rw [chooseSepAux, if_neg (by decide), if_neg (by simp [h3])]
  rw [chooseSepAux, if_pos rfl]

theorem dropWhile_eq_self_of (p : Char → Bool) (l : List Char)
    (h : ∀ c ∈ l, p c = false) : l.dropWhile p = l := by
  cases l with
  | nil => rfl
  | cons c rest =>
    rw [List.dropWhile_cons, if_neg (by simp [h c (by simp)])]

theorem stripPy_no_ws (l : List Char) (h : ∀ c ∈ l, isPySpace c = false) :
    stripPy l = l := by
  rw [stripPy, dropWhile_eq_self_of _ _ h,
    dropWhile_eq_self_of _ _ (fun c hc => h c (List.mem_reverse.mp hc)),
    List.reverse_reverse]

theorem joinStrip_singletons (w : List Char) (h : ∀ c ∈ w, isPySpace c = false) :
    joinStrip (w.map (fun c => [c])) = if w = [] then [] else [w] := by
  simp only [joinStrip, flatten_map_singleton, stripPy_no_ws w h]

theorem popLoop_singleton :
    ∀ (u : List Char), chunk_overlap ≤ u.length → u.length ≤ chunk_size →
      popLoop 1 (u.map (fun c => [c])) u.length =
        ((u.drop (u.length - chunk_overlap)).map (fun c => [c]), chunk_overlap) := by
  intro u
  induction u with
  | nil =>
    intro h1 _
    have hco : chunk_overlap = 200 := rfl
    simp at h1
    omega
  | cons c u ih =>
    intro h1 h2
    have hco : chunk_overlap = 200 := rfl
    have hcs : chunk_size = 1000 := rfl
    simp only [List.map_cons]
    rw [popLoop]
    by_cases hgt : chunk_overlap < (c :: u).length
    · rw [if_pos (Or.inl hgt)]
      have e1 : (c :: u).length - (List.length [c]) = u.length := by simp
      rw [e1, ih (by simp at hgt; omega) (by simp at h2 ⊢; omega)]
      have e2 : (c :: u).length - chunk_overlap = (u.length - chunk_overlap) + 1 := by
        simp only [List.length_cons]
        simp at hgt
        omega
      rw [e2, List.drop_succ_cons]
    · have heq : (c :: u).length = chunk_overlap :=
        Nat.le_antisymm (Nat.not_lt.mp hgt) h1
      rw [if_neg (by rw [heq]; simp; omega)]
      simp [heq]

theorem slide_nil : slide [] = [] := by
  rw [slide]
  simp

theorem slide_small (w : List Char) (h0 : w ≠ []) (h1 : w.length ≤ chunk_size) :
    slide w = [w] := by
  rw [slide, dif_neg h0, dif_pos h1]

theorem slide_step (w X : List Char) (hfull : w.length = chunk_size) (hX : X ≠ []) :
    slide (w ++ X) = w :: slide (w.drop (chunk_size - chunk_overlap) ++ X) := by
  have hcs : chunk_size = 1000 := rfl
  have hco : chunk_overlap = 200 := rfl
  have hlen : (w ++ X).length = chunk_size + X.length := by
    simp [List.length_append, hfull]
  have hXpos : 0 < X.length := List.length_pos.mpr hX
  rw [slide]
  rw [dif_neg (by simp [hX])]
  rw [dif_neg (by rw [hlen]; omega)]
  congr 1
  · rw [List.take_append_eq_append_take, hfull, Nat.sub_self, List.take_zero,
      List.append_nil, ← hfull, List.take_length]
  · congr 1
    rw [List.drop_append_eq_append_drop, hfull]
    have e0 : chunk_size - chunk_overlap - chunk_size = 0 := by omega
    rw [e0, List.drop_zero]

theorem mergeGo_singleton :
    ∀ (rest w : List Char) (docs : List (List Char)),
      w.length ≤ chunk_size →
      (∀ c ∈ w, isPySpace c = false) →
      (∀ c ∈ rest, isPySpace c = false) →
      mergeGo (rest.map (fun c => [c])) (w.map (fun c => [c])) w.length docs =
        docs ++ slide (w ++ rest) := by
  intro rest
  induction rest with
  | nil =>
    intro w docs hw hws _
    simp only [List.map_nil, mergeGo]
    rw [joinStrip_singletons w hws, List.append_nil]
    by_cases hw0 : w = []
    · rw [if_pos hw0, hw0, slide_nil]
    · rw [if_neg hw0, slide_small w hw0 hw]
  | cons d rest ih =>
    intro w docs hw hws hrest
    have hcs : chunk_size = 1000 := rfl
    have hco : chunk_overlap = 200 := rfl
    have hd : isPySpace d = false := hrest d (by simp)
    have hrest' : ∀ c ∈ rest, isPySpace c = false := fun c hc => hrest c (by simp [hc])
    simp only [List.map_cons, mergeGo, List.length_singleton]
    by_cases hfull : w.length = chunk_size
    · have hwne : w ≠ [] := by
        intro h0
        rw [h0] at hfull
        simp [hcs] at hfull
      rw [if_pos ⟨by omega, by simpa using hwne⟩]
      rw [popLoop_singleton w (by omega) hw]
      rw [joinStrip_singletons w hws, if_neg hwne]
      have e1 : (w.drop (w.length - chunk_overlap)).map (fun c => [c]) ++ [[d]] =
          ((w.drop (w.length - chunk_overlap)) ++ [d]).map (fun c => [c]) := by
        simp
      have e2 : chunk_overlap + 1 =
          ((w.drop (w.length - chunk_overlap)) ++ [d]).length := by
        simp [List.length_drop]
        omega
      rw [e1, e2, ih _ _ (by simp [List.length_drop]; omega)
        (by
          intro c hc
          rcases List.mem_append.mp hc with hc1 | hc2
          · exact hws c (List.mem_of_mem_drop hc1)
          · simp at hc2
            rw [hc2]
            exact hd)
        hrest']
      rw [slide_step w (d :: rest) hfull (by simp), hfull]
      simp [List.append_assoc]
    · have hlt : w.length < chunk_size := Nat.lt_of_le_of_ne hw hfull
      rw [if_neg (by intro hcc; omega)]
      have e1 : w.map (fun c => [c]) ++ [[d]] = (w ++ [d]).map (fun c => [c]) := by
        simp
      have e2 : w.length + 1 = (w ++ [d]).length := by simp
      rw [e1, e2, ih _ _ (by simp; omega)
        (by
          intro c hc
          rcases List.mem_append.mp hc with hc1 | hc2
          · exact hws c hc1
          · simp at hc2
            rw [hc2]
            exact hd)
        hrest']
      simp [List.append_assoc]

theorem split_text_no_ws (t : List Char) (h : ∀ c ∈ t, isPySpace c = false) :
    split_text t = slide t := by
  rw [split_text]
  simp only [split_text_go]
  rw [chooseSep_no_ws t h]
  simp only [List.isEmpty_nil]
  rw [split_text_with_regex, if_pos rfl, filter_singletons]
  rw [process_splits_good _ _ _ [] (by
    intro s hs
    obtain ⟨c, _, rfl⟩ := List.mem_map.mp hs
    simp [chunk_size])]
  rw [List.nil_append, merge_splits]
  have := mergeGo_singleton t [] [] (by simp [chunk_size]) (by simp) h
  simpa using this

theorem slide_drop_join (ds : List Char) :
    ((slide ds).map (List.drop chunk_overlap)).flatten = ds.drop chunk_overlap := by
  have hcs : chunk_size = 1000 := rfl
  have hco : chunk_overlap = 200 := rfl
  by_cases h0 : ds = []
  · simp [h0, slide_nil]
  · by_cases h1 : ds.length ≤ chunk_size
    · rw [slide_small ds h0 h1]
      simp
    · rw [slide]
      rw [dif_neg h0, dif_neg h1]
      simp only [List.map_cons, List.flatten_cons]
      rw [slide_drop_join (ds.drop (chunk_size - chunk_overlap))]
      rw [List.drop_drop]
      have e1 : chunk_size - chunk_overlap + chunk_overlap = chunk_size := by omega
      rw [e1]
      have e2 : (List.take chunk_size ds).length = chunk_size := by
        simp
        omega
      calc List.drop chunk_overlap (List.take chunk_size ds) ++ List.drop chunk_size ds
          = List.drop chunk_overlap (List.take chunk_size ds) ++
              List.drop (chunk_overlap - (List.take chunk_size ds).length)
                (List.drop chunk_size ds) := by
            rw [Nat.sub_eq_zero_of_le (by omega), List.drop_zero]
        _ = List.drop chunk_overlap (List.take chunk_size ds ++ List.drop chunk_size ds) := by
            rw [List.drop_append_eq_append_drop]
        _ = List.drop chunk_overlap ds := by rw [List.take_append_drop]
termination_by ds.length
decreasing_by
  simp only [List.length_drop]
  have : chunk_size < ds.length := Nat.lt_of_not_le h1
  have hcs : chunk_size = 1000 := rfl
  have hco : chunk_overlap = 200 := rfl
  omega

theorem deoverlap_slide (t : List Char) : deoverlap (slide t) = t := by
  have hcs : chunk_size = 1000 := rfl
  have hco : chunk_overlap = 200 := rfl
  by_cases h0 : t = []
  · simp [h0, slide_nil, deoverlap]
  · by_cases h1 : t.length ≤ chunk_size
    · rw [slide_small t h0 h1]
      simp [deoverlap]
    · rw [slide, dif_neg h0, dif_neg h1]
      rw [deoverlap]
      rw [slide_drop_join]
      rw [List.drop_drop]
      have e1 : chunk_size - chunk_overlap + chunk_overlap = chunk_size := by omega
      rw [e1, List.take_append_drop]

/-- Claim C4 counterexample: for the two-character text " a" the Chunker
    returns the single chunk "a" (leading whitespace is stripped), so no
    de-overlapped concatenation of the chunks — under the fixed-overlap
    reading or under any choice of per-chunk overlap amounts — can
    reconstruct the original text. -/
theorem C4_counterexample_whitespace_stripped :
    deoverlap (split_text [' ', 'a']) ≠ [' ', 'a'] ∧
    ¬ ∃ ds : List Nat, reconstructsFrom (split_text [' ', 'a']) ds [' ', 'a'] := by
  have hst : split_text [' ', 'a'] = [['a']] := by decide
  constructor
  · rw [hst]
    decide
  · rintro ⟨ds, hlen, hhead, hjoin⟩
    rw [hst] at hlen hjoin
    obtain ⟨d, rfl⟩ := List.length_eq_one.mp hlen
    simp at hhead
    rw [hhead] at hjoin
    simp at hjoin

/-- Claim C4 (amended): for every input text containing no whitespace
    characters (so that whitespace stripping and the whitespace separators
    never apply), concatenating the chunks with the 200-character overlap
    prefix removed from every chunk after the first reconstructs the
    original text exactly. -/
theorem C4_deoverlap_roundtrip (t : List Char) (h : ∀ c ∈ t, isPySpace c = false) :
    deoverlap (split_text t) = t := by
  rw [split_text_no_ws t h, deoverlap_slide]

/-- Witness for C4 on the whitespace-free text "abc". -/
theorem C4_deoverlap_roundtrip_witness :
    (∀ c ∈ (['a', 'b', 'c'] : List Char), isPySpace c = false) ∧
    deoverlap (split_text ['a', 'b', 'c']) = ['a', 'b', 'c'] :=
  ⟨by decide, C4_deoverlap_roundtrip ['a', 'b', 'c'] (by decide)⟩
